import Mathlib

/-!
Shallow embedding of the QuizGame adaptive question-sequencing engine.

The source of truth is the generator `questionGenerator` and the class
`Quiz` in the repository (the adaptive generator keeps three FIFO pools,
one per difficulty tier, a streak counter `consecutiveCorrect`, a
medium-specific streak counter `consecutiveMediumCorrect` and a
`currentDifficulty` tier; each resume consumes one boolean answer and
emits the next question).  JavaScript's `xs.shift()` is modelled by
taking the head of a list, and a chain `a.shift() || b.shift()` by
`takeFirst` over the list of tier names in source order.  The generator
protocol (yield / next(answer)) is modelled by a function from the input
question list and the list of answers supplied at each resume to the
list of emitted questions; a missing answer (the caller resuming with
`undefined`) is modelled by `Option.none`.
-/

/-- A quiz question, mirroring the `Question` class constructor fields. -/
structure Question where
  text : String
  choices : List String
  answer : String
  difficulty : String
  category : String
deriving DecidableEq, Repr

/-- The local mutable state of `questionGenerator`: the three tier pools
produced by the initial filters, the two streak counters and the current
difficulty tier. -/
structure GenState where
  easy : List Question
  medium : List Question
  hard : List Question
  consecutiveCorrect : Nat
  consecutiveMediumCorrect : Nat
  currentDifficulty : String
deriving DecidableEq, Repr

/-- Concatenation of the three tier pools (the questions still held by the
generator, in tier order easy, medium, hard). -/
def allPool (s : GenState) : List Question :=
  s.easy ++ s.medium ++ s.hard

/-- Number of questions still held by the generator. -/
def poolSize (s : GenState) : Nat :=
  (allPool s).length

/-- The pool of a given tier name (any other name has no pool). -/
def tierList (s : GenState) (t : String) : List Question :=
  if t = "easy" then s.easy
  else if t = "medium" then s.medium
  else if t = "hard" then s.hard
  else []

/-- One `xs.shift()` on the named tier pool: removes and returns the front
question of that pool, or returns `none` leaving the state unchanged. -/
def takeTier (s : GenState) (t : String) : Option Question × GenState :=
  if t = "easy" then
    match s.easy with
    | [] => (none, s)
    | q :: rest => (some q, { s with easy := rest })
  else if t = "medium" then
    match s.medium with
    | [] => (none, s)
    | q :: rest => (some q, { s with medium := rest })
  else if t = "hard" then
    match s.hard with
    | [] => (none, s)
    | q :: rest => (some q, { s with hard := rest })
  else (none, s)

/-- A chain `a.shift() || b.shift() || ...` from the source: shift the
pools in the given order and keep the first question obtained. -/
def takeFirst (s : GenState) : List String → Option Question × GenState
  | [] => (none, s)
  | t :: ts =>
    match takeTier s t with
    | (some q, s2) => (some q, s2)
    | (none, _) => takeFirst s ts

/-- The `lastAnswer === true` arm of the loop body, applied after the streak
increments: easy promotes to medium at streak 2 iff the medium pool is
non-empty (else `easy.shift() || hard.shift()`); medium promotes to hard at
medium-streak 3 iff the hard pool is non-empty (else
`medium.shift() || easy.shift()`); otherwise the current tier is kept,
shifting its own pool when non-empty and running the full
`easy || medium || hard` fallback when not. -/
def correctBranch (s1 : GenState) : Option Question × GenState :=
  if s1.currentDifficulty = "easy" ∧ 2 ≤ s1.consecutiveCorrect then
    if 0 < s1.medium.length then
      takeFirst { s1 with currentDifficulty := "medium", consecutiveMediumCorrect := 0 } ["medium"]
    else
      takeFirst s1 ["easy", "hard"]
  else if s1.currentDifficulty = "medium" ∧ 3 ≤ s1.consecutiveMediumCorrect then
    if 0 < s1.hard.length then
      takeFirst { s1 with currentDifficulty := "hard" } ["hard"]
    else
      takeFirst s1 ["medium", "easy"]
  else
    if s1.currentDifficulty = "easy" ∧ 0 < s1.easy.length then
      takeFirst s1 ["easy"]
    else if s1.currentDifficulty = "medium" ∧ 0 < s1.medium.length then
      takeFirst s1 ["medium"]
    else if s1.currentDifficulty = "hard" ∧ 0 < s1.hard.length then
      takeFirst s1 ["hard"]
    else
      takeFirst s1 ["easy", "medium", "hard"]

/-- The `lastAnswer === false` arm of the loop body, applied after the
streak reset: the tier drops one level (hard to medium, medium to easy,
easy stays) with the fallback shift chain of the source. -/
def wrongBranch (s1 : GenState) : Option Question × GenState :=
  if s1.currentDifficulty = "hard" then
    takeFirst { s1 with currentDifficulty := "medium", consecutiveMediumCorrect := 0 }
      ["medium", "easy", "hard"]
  else if s1.currentDifficulty = "medium" then
    takeFirst { s1 with currentDifficulty := "easy", consecutiveMediumCorrect := 0 }
      ["easy", "medium", "hard"]
  else
    takeFirst s1 ["easy", "medium", "hard"]

/-- One iteration of the `while` loop body of `questionGenerator`: given the
answer received at the last yield (`none` models `null`/`undefined`) and the
current state, compute the question to emit next (if any) and the updated
state.  On a correct answer `consecutiveCorrect` is incremented (and
`consecutiveMediumCorrect` too when the current tier is medium) and the
promotion logic of `correctBranch` runs; on a wrong answer the streak is
reset and the demotion logic of `wrongBranch` runs; with no answer signal
the plain `easy || medium || hard` chain runs. -/
def stepBody (lastAnswer : Option Bool) (s : GenState) : Option Question × GenState :=
  match lastAnswer with
  | some true =>
    correctBranch
      { s with
        consecutiveCorrect := s.consecutiveCorrect + 1,
        consecutiveMediumCorrect :=
          if s.currentDifficulty = "medium" then s.consecutiveMediumCorrect + 1
          else s.consecutiveMediumCorrect }
  | some false => wrongBranch { s with consecutiveCorrect := 0 }
  | none => takeFirst s ["easy", "medium", "hard"]

/-- The `while (easy.length > 0 || medium.length > 0 || hard.length > 0)`
loop of `questionGenerator`.  Each iteration consumes the answer received at
the previous yield, emits the chosen question, and receives the next answer
from the front of `answers` (or `none` when the caller supplies nothing).
`fuel` bounds the number of iterations; every call site passes at least the
pool size, which is enough because each emission removes one question. -/
def runLoop : Nat → Option Bool → GenState → List Bool → List Question
  | 0, _, _, _ => []
  | fuel + 1, lastAnswer, s, answers =>
    if 0 < s.easy.length ∨ 0 < s.medium.length ∨ 0 < s.hard.length then
      match stepBody lastAnswer s with
      | (some q, s2) => q :: runLoop fuel answers.head? s2 answers.tail
      | (none, _) => []
    else []

/-- The state of `questionGenerator` right after the three initial filters:
the input questions are partitioned by the string value of their
`difficulty` field, order preserved; streaks start at 0 and the current
difficulty starts at easy. -/
def initState (questions : List Question) : GenState :=
  { easy := questions.filter (fun q => q.difficulty == "easy"),
    medium := questions.filter (fun q => q.difficulty == "medium"),
    hard := questions.filter (fun q => q.difficulty == "hard"),
    consecutiveCorrect := 0,
    consecutiveMediumCorrect := 0,
    currentDifficulty := "easy" }

/-- The state after the opening move: the seed question has been removed
from the easy pool (`rest` is what remains) and the answer received at the
seed yield sets `consecutiveCorrect` to 1 if it was `true` and to 0
otherwise; nothing else changes. -/
def afterSeed (s : GenState) (rest : List Question) (firstAnswer : Option Bool) : GenState :=
  { s with
    easy := rest,
    consecutiveCorrect := if firstAnswer = some true then 1 else 0 }

/-- Run of `questionGenerator` on an input question list, with `answers`
the booleans supplied at the successive resumes (`answers.head?` answers
the first emitted question, and so on); the result is the list of emitted
questions in order.  If the easy pool is non-empty the opening move emits
its front question and seeds the streak from the first answer; otherwise
the loop starts immediately with no answer signal. -/
def questionGenerator (questions : List Question) (answers : List Bool) : List Question :=
  match (initState questions).easy with
  | [] => runLoop (poolSize (initState questions)) none (initState questions) answers
  | q :: rest =>
    q :: runLoop (poolSize (initState questions)) answers.head?
      (afterSeed (initState questions) rest answers.head?) answers.tail

/-- The `Quiz` class state: running score, question list, position index
and the two outcome counters. -/
structure Quiz where
  score : Nat
  questions : List Question
  questionIndex : Nat
  correctAnswers : Nat
  incorrectAnswers : Nat
deriving DecidableEq, Repr

/-- `Quiz.checkAnswer`: a correct answer increments `correctAnswers` and
`score`, a wrong one increments `incorrectAnswers`.  (The source also
returns the boolean unchanged; only the state update matters here.) -/
def Quiz.checkAnswer (quiz : Quiz) (isCorrect : Bool) : Quiz :=
  if isCorrect then
    { quiz with correctAnswers := quiz.correctAnswers + 1, score := quiz.score + 1 }
  else
    { quiz with incorrectAnswers := quiz.incorrectAnswers + 1 }

/-- `Quiz.nextQuestion`: advance the position index by one. -/
def Quiz.nextQuestion (quiz : Quiz) : Quiz :=
  { quiz with questionIndex := quiz.questionIndex + 1 }

/-- `Quiz.isEnded`: the session is over when the position index equals the
number of questions. -/
def Quiz.isEnded (quiz : Quiz) : Bool :=
  quiz.questionIndex == quiz.questions.length

/-- The per-answer update performed by `handleAnswerClick`: it calls
`checkAnswer` with the correctness of the clicked choice and then
`nextQuestion`. -/
def Quiz.processAnswer (quiz : Quiz) (isCorrect : Bool) : Quiz :=
  (quiz.checkAnswer isCorrect).nextQuestion

/-- Easy question E1 of the canonical example pool. -/
def qE1 : Question := ⟨"E1", ["a", "b"], "a", "easy", "General"⟩

/-- Easy question E2 of the canonical example pool. -/
def qE2 : Question := ⟨"E2", ["a", "b"], "a", "easy", "General"⟩

/-- Medium question M1 of the canonical example pool. -/
def qM1 : Question := ⟨"M1", ["a", "b"], "a", "medium", "General"⟩

/-- Medium question M2 of the canonical example pool. -/
def qM2 : Question := ⟨"M2", ["a", "b"], "a", "medium", "General"⟩

/-- Hard question H1 of the canonical example pool. -/
def qH1 : Question := ⟨"H1", ["a", "b"], "a", "hard", "General"⟩

/-- The canonical example pool in arrival order. -/
def examplePool : List Question := [qE1, qE2, qM1, qM2, qH1]

example : questionGenerator examplePool [true, true, true] = [qE1, qM1, qM2, qE2, qH1] := by
  decide

/-! Helper lemmas about `takeTier` and `takeFirst`. -/

/-- `tierList` at the literal tier names. -/
theorem tierList_easy (s : GenState) : tierList s "easy" = s.easy := rfl

/-- `tierList` at the medium tier name. -/
theorem tierList_medium (s : GenState) : tierList s "medium" = s.medium := by
  simp [tierList]

/-- `tierList` at the hard tier name. -/
theorem tierList_hard (s : GenState) : tierList s "hard" = s.hard := by
  simp [tierList]

/-- `takeTier` never touches the streak counters or the current tier. -/
theorem takeTier_counters (s : GenState) (t : String) :
    (takeTier s t).2.consecutiveCorrect = s.consecutiveCorrect ∧
    (takeTier s t).2.consecutiveMediumCorrect = s.consecutiveMediumCorrect ∧
    (takeTier s t).2.currentDifficulty = s.currentDifficulty := by
  rcases s with ⟨e, m, hd, cc, cmc, d⟩
  unfold takeTier
  split_ifs <;> cases e <;> cases m <;> cases hd <;> exact ⟨rfl, rfl, rfl⟩

/-- A successful `takeTier` removes exactly the returned question from the
pools: the returned question consed onto the new pools is a permutation of
the old pools. -/
theorem takeTier_perm (s : GenState) (t : String) (q : Question) (s2 : GenState)
    (h : takeTier s t = (some q, s2)) :
    (q :: allPool s2).Perm (allPool s) := by
  rcases s with ⟨e, m, hd, cc, cmc, d⟩
  unfold takeTier at h
  split_ifs at h
  · cases e with
    | nil => simp at h
    | cons q0 rest =>
      simp only [Prod.mk.injEq, Option.some.injEq] at h
      obtain ⟨rfl, rfl⟩ := h
      simp [allPool]
  · cases m with
    | nil => simp at h
    | cons q0 rest =>
      simp only [Prod.mk.injEq, Option.some.injEq] at h
      obtain ⟨rfl, rfl⟩ := h
      simp only [allPool, List.cons_append, List.append_assoc]
      exact List.perm_middle.symm
  · cases hd with
    | nil => simp at h
    | cons q0 rest =>
      simp only [Prod.mk.injEq, Option.some.injEq] at h
      obtain ⟨rfl, rfl⟩ := h
      simp only [allPool, List.cons_append, List.append_assoc]
      exact List.perm_middle.symm.trans (List.Perm.append_left e List.perm_middle.symm)
  · simp at h

/-- A failed `takeTier` leaves the state unchanged, and the addressed tier
pool was empty. -/
theorem takeTier_eq_none (s : GenState) (t : String) (s2 : GenState)
    (h : takeTier s t = (none, s2)) :
    s2 = s ∧ tierList s t = [] := by
  rcases s with ⟨e, m, hd, cc, cmc, d⟩
  unfold takeTier tierList at *
  split_ifs at * <;> cases e <;> cases m <;> cases hd <;> simp_all

/-- A successful `takeFirst` removes exactly the returned question from the
pools. -/
theorem takeFirst_perm (order : List String) (s : GenState) (q : Question) (s2 : GenState)
    (h : takeFirst s order = (some q, s2)) :
    (q :: allPool s2).Perm (allPool s) := by
  induction order with
  | nil => simp [takeFirst] at h
  | cons t ts ih =>
    unfold takeFirst at h
    rcases hh : takeTier s t with ⟨oq, s3⟩
    rw [hh] at h
    cases oq with
    | some q0 =>
      simp only [Prod.mk.injEq, Option.some.injEq] at h
      obtain ⟨rfl, rfl⟩ := h
      exact takeTier_perm s t q0 _ hh
    | none => exact ih h

/-- `takeFirst` never touches the streak counters or the current tier. -/
theorem takeFirst_counters (order : List String) (s : GenState) :
    (takeFirst s order).2.consecutiveCorrect = s.consecutiveCorrect ∧
    (takeFirst s order).2.consecutiveMediumCorrect = s.consecutiveMediumCorrect ∧
    (takeFirst s order).2.currentDifficulty = s.currentDifficulty := by
  induction order with
  | nil => exact ⟨rfl, rfl, rfl⟩
  | cons t ts ih =>
    unfold takeFirst
    rcases hh : takeTier s t with ⟨oq, s3⟩
    cases oq with
    | some q0 =>
      have hc := takeTier_counters s t
      rw [hh] at hc
      exact hc
    | none => exact ih

/-- If `takeFirst` fails, every tier pool it tried was empty. -/
theorem takeFirst_fst_eq_none (order : List String) (s : GenState) :
    (takeFirst s order).1 = none → ∀ t ∈ order, tierList s t = [] := by
  induction order with
  | nil => simp
  | cons t ts ih =>
    intro h t' ht'
    unfold takeFirst at h
    rcases hh : takeTier s t with ⟨oq, s3⟩
    rw [hh] at h
    cases oq with
    | some q0 => simp at h
    | none =>
      rcases List.mem_cons.mp ht' with rfl | hmem
      · exact (takeTier_eq_none s t' s3 hh).2
      · exact ih h t' hmem

/-- The question returned by the full fallback chain
`easy.shift() || medium.shift() || hard.shift()` is the front of the
concatenated pools. -/
theorem takeFirst_emh_fst (s : GenState) :
    (takeFirst s ["easy", "medium", "hard"]).1 = (allPool s).head? := by
  rcases s with ⟨e, m, hd, cc, cmc, d⟩
  cases e <;> cases m <;> cases hd <;> simp [takeFirst, takeTier, allPool]

/-! Helper lemmas about `stepBody` and `runLoop`. -/

/-- A successful correct-answer branch removes exactly the emitted question
from the pools. -/
theorem correctBranch_perm (s1 : GenState) (q : Question) (s2 : GenState)
    (h : correctBranch s1 = (some q, s2)) :
    (q :: allPool s2).Perm (allPool s1) := by
  unfold correctBranch at h
  split_ifs at h <;> (have hp := takeFirst_perm _ _ _ _ h; exact hp)

/-- A successful wrong-answer branch removes exactly the emitted question
from the pools. -/
theorem wrongBranch_perm (s1 : GenState) (q : Question) (s2 : GenState)
    (h : wrongBranch s1 = (some q, s2)) :
    (q :: allPool s2).Perm (allPool s1) := by
  unfold wrongBranch at h
  split_ifs at h <;> (have hp := takeFirst_perm _ _ _ _ h; exact hp)

/-- A successful loop-body step removes exactly the emitted question from
the pools: the emitted question consed onto the new pools is a permutation
of the old pools. -/
theorem stepBody_perm (la : Option Bool) (s : GenState) (q : Question) (s2 : GenState)
    (h : stepBody la s = (some q, s2)) :
    (q :: allPool s2).Perm (allPool s) := by
  cases la with
  | none =>
    unfold stepBody at h
    exact takeFirst_perm _ _ _ _ h
  | some b =>
    cases b with
    | true =>
      unfold stepBody at h
      have hp := correctBranch_perm _ _ _ h
      exact hp
    | false =>
      unfold stepBody at h
      have hp := wrongBranch_perm _ _ _ h
      exact hp

/-- If a fallback chain trying all three tiers fails, the whole pool is
empty. -/
theorem allPool_eq_nil_of_takeFirst (s : GenState) (order : List String)
    (he0 : "easy" ∈ order) (hm0 : "medium" ∈ order) (hh0 : "hard" ∈ order)
    (h : (takeFirst s order).1 = none) : allPool s = [] := by
  have he := takeFirst_fst_eq_none _ s h "easy" he0
  have hm := takeFirst_fst_eq_none _ s h "medium" hm0
  have hh := takeFirst_fst_eq_none _ s h "hard" hh0
  rw [tierList_easy] at he
  rw [tierList_medium] at hm
  rw [tierList_hard] at hh
  simp [allPool, he, hm, hh]

/-- The correct-answer branch only fails to produce a question when the
whole pool is empty. -/
theorem correctBranch_fst_eq_none (s1 : GenState)
    (h : (correctBranch s1).1 = none) : allPool s1 = [] := by
  unfold correctBranch at h
  split_ifs at h with h1 h2 h3 h4 h5 h6 h7
  · -- promotion to medium: the medium pool was non-empty
    have hm := takeFirst_fst_eq_none _ _ h "medium" (by simp)
    rw [tierList_medium] at hm
    have hm2 : s1.medium = [] := hm
    simp [hm2] at h2
  · -- medium empty, easy-or-hard fallback failed
    have he := takeFirst_fst_eq_none _ _ h "easy" (by simp)
    have hh := takeFirst_fst_eq_none _ _ h "hard" (by simp)
    rw [tierList_easy] at he
    rw [tierList_hard] at hh
    have he2 : s1.easy = [] := he
    have hh2 : s1.hard = [] := hh
    have hm2 : s1.medium = [] := by simpa using h2
    simp [allPool, he2, hm2, hh2]
  · -- promotion to hard: the hard pool was non-empty
    have hh := takeFirst_fst_eq_none _ _ h "hard" (by simp)
    rw [tierList_hard] at hh
    have hh2 : s1.hard = [] := hh
    simp [hh2] at h4
  · -- hard empty, medium-or-easy fallback failed
    have hm := takeFirst_fst_eq_none _ _ h "medium" (by simp)
    have he := takeFirst_fst_eq_none _ _ h "easy" (by simp)
    rw [tierList_medium] at hm
    rw [tierList_easy] at he
    have hm2 : s1.medium = [] := hm
    have he2 : s1.easy = [] := he
    have hh2 : s1.hard = [] := by simpa using h4
    simp [allPool, he2, hm2, hh2]
  · -- stay at easy with a non-empty easy pool
    have he := takeFirst_fst_eq_none _ _ h "easy" (by simp)
    rw [tierList_easy] at he
    have he2 : s1.easy = [] := he
    simp [he2] at h5
  · -- stay at medium with a non-empty medium pool
    have hm := takeFirst_fst_eq_none _ _ h "medium" (by simp)
    rw [tierList_medium] at hm
    have hm2 : s1.medium = [] := hm
    simp [hm2] at h6
  · -- stay at hard with a non-empty hard pool
    have hh := takeFirst_fst_eq_none _ _ h "hard" (by simp)
    rw [tierList_hard] at hh
    have hh2 : s1.hard = [] := hh
    simp [hh2] at h7
  · have hp := allPool_eq_nil_of_takeFirst _ _ (by simp) (by simp) (by simp) h
    exact hp

/-- The wrong-answer branch only fails to produce a question when the whole
pool is empty. -/
theorem wrongBranch_fst_eq_none (s1 : GenState)
    (h : (wrongBranch s1).1 = none) : allPool s1 = [] := by
  unfold wrongBranch at h
  split_ifs at h <;>
    (have hp := allPool_eq_nil_of_takeFirst _ _ (by simp) (by simp) (by simp) h; exact hp)

/-- The loop body only fails to produce a question when the whole pool is
empty: the pool running dry is the only way the loop can stop. -/
theorem stepBody_fst_eq_none (la : Option Bool) (s : GenState)
    (h : (stepBody la s).1 = none) : allPool s = [] := by
  cases la with
  | none =>
    unfold stepBody at h
    exact allPool_eq_nil_of_takeFirst s _ (by simp) (by simp) (by simp) h
  | some b =>
    cases b with
    | true =>
      unfold stepBody at h
      have hp := correctBranch_fst_eq_none _ h
      exact hp
    | false =>
      unfold stepBody at h
      have hp := wrongBranch_fst_eq_none _ h
      exact hp

/-- With enough fuel, the loop emits exactly the questions left in the
pools, as a permutation (one emission per iteration, each removing one
question, until the pools are empty). -/
theorem runLoop_perm (fuel : Nat) :
    ∀ (la : Option Bool) (s : GenState) (answers : List Bool),
      poolSize s ≤ fuel → (runLoop fuel la s answers).Perm (allPool s) := by
  induction fuel with
  | zero =>
    intro la s answers hfuel
    have hnil : allPool s = [] := by
      have := Nat.le_zero.mp hfuel
      exact List.eq_nil_of_length_eq_zero this
    simp [runLoop, hnil]
  | succ n ih =>
    intro la s answers hfuel
    by_cases hpool : 0 < s.easy.length ∨ 0 < s.medium.length ∨ 0 < s.hard.length
    · rcases hstep : stepBody la s with ⟨oq, s2⟩
      cases oq with
      | none =>
        have : allPool s = [] := stepBody_fst_eq_none la s (by rw [hstep])
        rcases hpool with hp | hp | hp <;>
          simp_all [allPool, List.append_eq_nil]
      | some q =>
        have hrun : runLoop (n + 1) la s answers =
            q :: runLoop n answers.head? s2 answers.tail := by
          rw [runLoop, if_pos hpool, hstep]
        have hperm := stepBody_perm la s q s2 hstep
        have hsize : poolSize s2 + 1 = poolSize s := by
          have hlen := hperm.length_eq
          simpa [poolSize] using hlen
        have hrec := ih answers.head? s2 answers.tail (by omega)
        rw [hrun]
        exact (hrec.cons q).trans hperm
    · have hnil : allPool s = [] := by
        push_neg at hpool
        obtain ⟨h1, h2, h3⟩ := hpool
        simp_all [allPool, List.length_eq_zero]
      unfold runLoop
      rw [if_neg hpool]
      simp [hnil]

/-- The three initial filters only repartition the input: their
concatenation is a permutation of the input list, provided every question
carries one of the three tier labels. -/
theorem filter_partition_perm (questions : List Question)
    (h : ∀ q ∈ questions,
      q.difficulty = "easy" ∨ q.difficulty = "medium" ∨ q.difficulty = "hard") :
    (allPool (initState questions)).Perm questions := by
  induction questions with
  | nil => simp [allPool, initState]
  | cons q rest ih =>
    have hq := h q (by simp)
    have ih2 := ih (fun p hp => h p (List.mem_cons_of_mem q hp))
    simp only [allPool, initState] at ih2 ⊢
    simp only [List.append_assoc] at ih2
    rcases hq with hq | hq | hq
    · simp [List.filter_cons, hq]
      simpa using ih2
    · simp [List.filter_cons, hq]
      exact List.perm_middle.trans (ih2.cons q)
    · simp [List.filter_cons, hq]
      exact ((List.Perm.append_left _ List.perm_middle).trans List.perm_middle).trans (ih2.cons q)

/-- A full run of the generator emits a permutation of the partitioned
pools, for every answer sequence. -/
theorem questionGenerator_perm (questions : List Question) (answers : List Bool) :
    (questionGenerator questions answers).Perm (allPool (initState questions)) := by
  unfold questionGenerator
  rcases heq : (initState questions).easy with _ | ⟨q, rest⟩
  · exact runLoop_perm _ _ _ _ (le_refl _)
  · have hle : poolSize (afterSeed (initState questions) rest answers.head?) ≤
        poolSize (initState questions) := by
      simp only [poolSize, allPool, afterSeed, heq, List.length_append, List.length_cons]
      omega
    have hrec := runLoop_perm (poolSize (initState questions)) answers.head?
      (afterSeed (initState questions) rest answers.head?) answers.tail hle
    refine (hrec.cons q).trans ?_
    have hall : allPool (initState questions) =
        (q :: rest) ++ (initState questions).medium ++ (initState questions).hard := by
      rw [allPool, heq]
    rw [hall]
    simp only [List.cons_append]
    exact List.Perm.refl _

/-! Claim theorems: conservation, termination, dropped questions. -/

/-- C1.  Conservation: for every input list of questions, each tagged with
difficulty easy, medium or hard, and every sequence of boolean correctness
feedback, the multiset of questions yielded by `questionGenerator` across a
full run equals exactly the input multiset — no question is yielded twice
and none is omitted. -/
theorem questionGenerator_conservation (questions : List Question) (answers : List Bool)
    (h : ∀ q ∈ questions,
      q.difficulty = "easy" ∨ q.difficulty = "medium" ∨ q.difficulty = "hard") :
    (questionGenerator questions answers : Multiset Question) =
      (questions : Multiset Question) :=
  Multiset.coe_eq_coe.mpr
    ((questionGenerator_perm questions answers).trans (filter_partition_perm questions h))

/-- Witness for C1 at the canonical example pool and feedback. -/
theorem questionGenerator_conservation_witness :
    (∀ q ∈ examplePool,
      q.difficulty = "easy" ∨ q.difficulty = "medium" ∨ q.difficulty = "hard") ∧
    (questionGenerator examplePool [true, true, true] : Multiset Question) =
      (examplePool : Multiset Question) :=
  ⟨by decide, questionGenerator_conservation examplePool [true, true, true] (by decide)⟩

/-- C2.  Termination: for every input pool of size N of tier-tagged
questions and every feedback sequence the generator yields exactly N
questions and then completes, and the loop body always produces a question
while any question remains in a tier pool — running out of questions in all
three tiers is the only termination condition. -/
theorem questionGenerator_termination (questions : List Question) (answers : List Bool)
    (la : Option Bool) (s : GenState)
    (h : ∀ q ∈ questions,
      q.difficulty = "easy" ∨ q.difficulty = "medium" ∨ q.difficulty = "hard")
    (hs : allPool s ≠ []) :
    (questionGenerator questions answers).length = questions.length ∧
    (stepBody la s).1.isSome = true := by
  constructor
  · exact ((questionGenerator_perm questions answers).trans
      (filter_partition_perm questions h)).length_eq
  · rcases ho : (stepBody la s).1 with _ | q
    · exact absurd (stepBody_fst_eq_none la s ho) hs
    · rfl

/-- Witness for C2 at the canonical example pool, feedback and a non-empty
loop state. -/
theorem questionGenerator_termination_witness :
    (∀ q ∈ examplePool,
      q.difficulty = "easy" ∨ q.difficulty = "medium" ∨ q.difficulty = "hard") ∧
    allPool (initState examplePool) ≠ [] ∧
    ((questionGenerator examplePool [true, false] ).length = examplePool.length ∧
      (stepBody (some true) (initState examplePool)).1.isSome = true) :=
  ⟨by decide, by decide,
    questionGenerator_termination examplePool [true, false] (some true)
      (initState examplePool) (by decide) (by decide)⟩

/-- A question carrying a difficulty label outside the three tiers. -/
def qX : Question := ⟨"X1", ["a", "b"], "a", "expert", "General"⟩

/-- C10.  Implicit tier-tag precondition: a question whose difficulty field
is none of easy, medium, hard is dropped by the initial partition and is
never emitted in any run of the generator. -/
theorem questionGenerator_drops_unknown_difficulty (questions : List Question)
    (answers : List Bool) (q : Question) (hq : q ∈ questions)
    (h1 : q.difficulty ≠ "easy") (h2 : q.difficulty ≠ "medium")
    (h3 : q.difficulty ≠ "hard") :
    q ∉ questionGenerator questions answers := by
  intro hmem
  have hpool := (questionGenerator_perm questions answers).mem_iff.mp hmem
  simp [allPool, initState, List.mem_filter, h1, h2, h3] at hpool

/-- Witness for C10: the expert-labelled question in a two-question pool is
never emitted. -/
theorem questionGenerator_drops_unknown_difficulty_witness :
    qX ∈ [qX, qE1] ∧ qX.difficulty ≠ "easy" ∧ qX.difficulty ≠ "medium" ∧
    qX.difficulty ≠ "hard" ∧ qX ∉ questionGenerator [qX, qE1] [true] :=
  ⟨by decide, by decide, by decide, by decide,
    questionGenerator_drops_unknown_difficulty [qX, qE1] [true] qX
      (by decide) (by decide) (by decide) (by decide)⟩

/-! Claim theorems: promotion, demotion, opening move. -/

/-- C4.  Promotion easy to medium: when the current tier is easy and a
correct answer brings the streak to at least 2, the step promotes to medium
iff the medium pool is non-empty — resetting the medium streak to 0 and
emitting the front medium question; if medium is empty it does not promote
and emits the front easy question if available, else the front hard
question. -/
theorem promotion_easy_to_medium (s : GenState)
    (htier : s.currentDifficulty = "easy")
    (hcc : 2 ≤ s.consecutiveCorrect + 1) :
    (0 < s.medium.length →
      (stepBody (some true) s).2.currentDifficulty = "medium" ∧
      (stepBody (some true) s).2.consecutiveMediumCorrect = 0 ∧
      (stepBody (some true) s).1 = s.medium.head? ∧
      (stepBody (some true) s).2.medium = s.medium.tail) ∧
    (s.medium = [] →
      (stepBody (some true) s).2.currentDifficulty = "easy" ∧
      (stepBody (some true) s).1 =
        (if 0 < s.easy.length then s.easy.head? else s.hard.head?)) := by
  rcases s with ⟨e, m, hd, cc, cmc, d⟩
  have hd' : d = "easy" := htier
  subst hd'
  have hcc' : 2 ≤ cc + 1 := hcc
  constructor
  · intro hm
    rcases m with _ | ⟨qm, mrest⟩
    · simp at hm
    · simp [stepBody, correctBranch, takeFirst, takeTier, hcc']
  · intro hm
    have hm' : m = [] := hm
    subst hm'
    rcases e with _ | ⟨qe, erest⟩ <;> rcases hd with _ | ⟨qh, hrest⟩ <;>
      simp [stepBody, correctBranch, takeFirst, takeTier, hcc']

/-- Witness for C4: from tier easy with streak 1 and a correct answer, the
step promotes to medium and emits the front medium question. -/
theorem promotion_easy_to_medium_witness :
    ((⟨[qE2], [qM1, qM2], [qH1], 1, 0, "easy"⟩ : GenState).currentDifficulty = "easy") ∧
    (2 ≤ (⟨[qE2], [qM1, qM2], [qH1], 1, 0, "easy"⟩ : GenState).consecutiveCorrect + 1) ∧
    (0 < (⟨[qE2], [qM1, qM2], [qH1], 1, 0, "easy"⟩ : GenState).medium.length) ∧
    ((stepBody (some true) ⟨[qE2], [qM1, qM2], [qH1], 1, 0, "easy"⟩).2.currentDifficulty = "medium" ∧
      (stepBody (some true) ⟨[qE2], [qM1, qM2], [qH1], 1, 0, "easy"⟩).2.consecutiveMediumCorrect = 0 ∧
      (stepBody (some true) ⟨[qE2], [qM1, qM2], [qH1], 1, 0, "easy"⟩).1 =
        ([qM1, qM2] : List Question).head? ∧
      (stepBody (some true) ⟨[qE2], [qM1, qM2], [qH1], 1, 0, "easy"⟩).2.medium =
        ([qM1, qM2] : List Question).tail) :=
  ⟨rfl, by decide, by decide,
    (promotion_easy_to_medium ⟨[qE2], [qM1, qM2], [qH1], 1, 0, "easy"⟩ rfl (by decide)).1
      (by decide)⟩

/-- C5.  Promotion medium to hard: when the current tier is medium and a
correct answer brings the medium streak to at least 3, the step promotes to
hard iff the hard pool is non-empty, emitting the front hard question; if
hard is empty it does not promote and emits the front medium question if
available, else the front easy question. -/
theorem promotion_medium_to_hard (s : GenState)
    (htier : s.currentDifficulty = "medium")
    (hcmc : 3 ≤ s.consecutiveMediumCorrect + 1) :
    (0 < s.hard.length →
      (stepBody (some true) s).2.currentDifficulty = "hard" ∧
      (stepBody (some true) s).1 = s.hard.head? ∧
      (stepBody (some true) s).2.hard = s.hard.tail) ∧
    (s.hard = [] →
      (stepBody (some true) s).2.currentDifficulty = "medium" ∧
      (stepBody (some true) s).1 =
        (if 0 < s.medium.length then s.medium.head? else s.easy.head?)) := by
  rcases s with ⟨e, m, hd, cc, cmc, d⟩
  have hd' : d = "medium" := htier
  subst hd'
  have hcmc' : 3 ≤ cmc + 1 := hcmc
  constructor
  · intro hh
    rcases hd with _ | ⟨qh, hrest⟩
    · simp at hh
    · simp [stepBody, correctBranch, takeFirst, takeTier, hcmc']
  · intro hh
    have hh' : hd = [] := hh
    subst hh'
    rcases m with _ | ⟨qm, mrest⟩ <;> rcases e with _ | ⟨qe, erest⟩ <;>
      simp [stepBody, correctBranch, takeFirst, takeTier, hcmc']

/-- Witness for C5: from tier medium with medium streak 2 and a correct
answer, the step promotes to hard and emits the front hard question. -/
theorem promotion_medium_to_hard_witness :
    ((⟨[], [qM2], [qH1], 3, 2, "medium"⟩ : GenState).currentDifficulty = "medium") ∧
    (3 ≤ (⟨[], [qM2], [qH1], 3, 2, "medium"⟩ : GenState).consecutiveMediumCorrect + 1) ∧
    (0 < (⟨[], [qM2], [qH1], 3, 2, "medium"⟩ : GenState).hard.length) ∧
    ((stepBody (some true) ⟨[], [qM2], [qH1], 3, 2, "medium"⟩).2.currentDifficulty = "hard" ∧
      (stepBody (some true) ⟨[], [qM2], [qH1], 3, 2, "medium"⟩).1 =
        ([qH1] : List Question).head? ∧
      (stepBody (some true) ⟨[], [qM2], [qH1], 3, 2, "medium"⟩).2.hard =
        ([qH1] : List Question).tail) :=
  ⟨rfl, by decide, by decide,
    (promotion_medium_to_hard ⟨[], [qM2], [qH1], 3, 2, "medium"⟩ rfl (by decide)).1
      (by decide)⟩

/-- C6.  Demotion is single-step and floored: on an incorrect answer the
streak resets to 0 and the tier demotes by exactly one level — hard to
medium (resetting the medium streak, taking from medium, else easy, else
hard) and medium to easy (resetting the medium streak, taking from easy,
else medium, else hard); from hard one incorrect answer never demotes
directly to easy, and at easy an incorrect answer leaves the tier at easy
(taking from easy, else medium, else hard). -/
theorem demotion_single_step (s : GenState) :
    (stepBody (some false) s).2.consecutiveCorrect = 0 ∧
    (s.currentDifficulty = "hard" →
      (stepBody (some false) s).2.currentDifficulty = "medium" ∧
      (stepBody (some false) s).2.consecutiveMediumCorrect = 0 ∧
      (stepBody (some false) s).1 =
        (if 0 < s.medium.length then s.medium.head?
         else if 0 < s.easy.length then s.easy.head? else s.hard.head?)) ∧
    (s.currentDifficulty = "medium" →
      (stepBody (some false) s).2.currentDifficulty = "easy" ∧
      (stepBody (some false) s).2.consecutiveMediumCorrect = 0 ∧
      (stepBody (some false) s).1 =
        (if 0 < s.easy.length then s.easy.head?
         else if 0 < s.medium.length then s.medium.head? else s.hard.head?)) ∧
    (s.currentDifficulty = "easy" →
      (stepBody (some false) s).2.currentDifficulty = "easy" ∧
      (stepBody (some false) s).1 =
        (if 0 < s.easy.length then s.easy.head?
         else if 0 < s.medium.length then s.medium.head? else s.hard.head?)) := by
  refine ⟨?_, ?_, ?_, ?_⟩
  · show (wrongBranch { s with consecutiveCorrect := 0 }).2.consecutiveCorrect = 0
    unfold wrongBranch
    split_ifs
    · exact (takeFirst_counters ["medium", "easy", "hard"] _).1
    · exact (takeFirst_counters ["easy", "medium", "hard"] _).1
    · exact (takeFirst_counters ["easy", "medium", "hard"] _).1
  · intro htier
    rcases s with ⟨e, m, hd, cc, cmc, d⟩
    have hd' : d = "hard" := htier
    subst hd'
    rcases m with _ | ⟨qm, mrest⟩ <;> rcases e with _ | ⟨qe, erest⟩ <;>
      rcases hd with _ | ⟨qh, hrest⟩ <;>
      simp [stepBody, wrongBranch, takeFirst, takeTier]
  · intro htier
    rcases s with ⟨e, m, hd, cc, cmc, d⟩
    have hd' : d = "medium" := htier
    subst hd'
    rcases m with _ | ⟨qm, mrest⟩ <;> rcases e with _ | ⟨qe, erest⟩ <;>
      rcases hd with _ | ⟨qh, hrest⟩ <;>
      simp [stepBody, wrongBranch, takeFirst, takeTier]
  · intro htier
    rcases s with ⟨e, m, hd, cc, cmc, d⟩
    have hd' : d = "easy" := htier
    subst hd'
    rcases m with _ | ⟨qm, mrest⟩ <;> rcases e with _ | ⟨qe, erest⟩ <;>
      rcases hd with _ | ⟨qh, hrest⟩ <;>
      simp [stepBody, wrongBranch, takeFirst, takeTier]

/-- Witness for C6: from tier hard an incorrect answer drops to medium,
resets the streaks and emits the front medium question. -/
theorem demotion_single_step_witness :
    ((⟨[qE1], [qM1], [qH1], 2, 1, "hard"⟩ : GenState).currentDifficulty = "hard") ∧
    ((stepBody (some false) ⟨[qE1], [qM1], [qH1], 2, 1, "hard"⟩).2.consecutiveCorrect = 0 ∧
      (stepBody (some false) ⟨[qE1], [qM1], [qH1], 2, 1, "hard"⟩).2.currentDifficulty = "medium" ∧
      (stepBody (some false) ⟨[qE1], [qM1], [qH1], 2, 1, "hard"⟩).2.consecutiveMediumCorrect = 0 ∧
      (stepBody (some false) ⟨[qE1], [qM1], [qH1], 2, 1, "hard"⟩).1 =
        (if 0 < (⟨[qE1], [qM1], [qH1], 2, 1, "hard"⟩ : GenState).medium.length then
          (⟨[qE1], [qM1], [qH1], 2, 1, "hard"⟩ : GenState).medium.head?
         else if 0 < (⟨[qE1], [qM1], [qH1], 2, 1, "hard"⟩ : GenState).easy.length then
          (⟨[qE1], [qM1], [qH1], 2, 1, "hard"⟩ : GenState).easy.head?
         else (⟨[qE1], [qM1], [qH1], 2, 1, "hard"⟩ : GenState).hard.head?)) :=
  ⟨rfl,
    (demotion_single_step ⟨[qE1], [qM1], [qH1], 2, 1, "hard"⟩).1,
    ((demotion_single_step ⟨[qE1], [qM1], [qH1], 2, 1, "hard"⟩).2.1 rfl).1,
    ((demotion_single_step ⟨[qE1], [qM1], [qH1], 2, 1, "hard"⟩).2.1 rfl).2.1,
    ((demotion_single_step ⟨[qE1], [qM1], [qH1], 2, 1, "hard"⟩).2.1 rfl).2.2⟩

/-- With enough fuel and no answer signal, the first question the loop
emits is the front of the concatenated pools (the `easy || medium || hard`
fallback), and nothing is emitted from an empty pool. -/
theorem runLoop_head (fuel : Nat) (s : GenState) (answers : List Bool)
    (hfuel : poolSize s ≤ fuel) :
    (runLoop fuel none s answers).head? = (allPool s).head? := by
  by_cases hnil : allPool s = []
  · have h0 : s.easy = [] ∧ s.medium = [] ∧ s.hard = [] := by
      simpa [allPool, List.append_eq_nil] using hnil
    cases fuel with
    | zero => simp [runLoop, hnil]
    | succ n =>
      rw [runLoop, if_neg ?_]
      · simp [hnil]
      · simp [h0.1, h0.2.1, h0.2.2]
  · have hpos : 1 ≤ poolSize s := by
      rcases Nat.eq_zero_or_pos (poolSize s) with h0 | h0
      · exact absurd (List.eq_nil_of_length_eq_zero h0) hnil
      · exact h0
    obtain ⟨n, rfl⟩ : ∃ n, fuel = n + 1 := by
      rcases fuel with _ | n
      · omega
      · exact ⟨n, rfl⟩
    have hguard : 0 < s.easy.length ∨ 0 < s.medium.length ∨ 0 < s.hard.length := by
      by_contra hng
      push_neg at hng
      obtain ⟨g1, g2, g3⟩ := hng
      apply hnil
      simp_all [allPool, List.length_eq_zero]
    rw [runLoop, if_pos hguard]
    rcases hstep : stepBody none s with ⟨oq, s2⟩
    cases oq with
    | none =>
      have := stepBody_fst_eq_none none s (by rw [hstep])
      exact absurd this hnil
    | some q =>
      have h1 : (takeFirst s ["easy", "medium", "hard"]).1 = some q :=
        congrArg Prod.fst hstep
      rw [takeFirst_emh_fst] at h1
      simp [h1]

/-- C7.  Opening move: if the easy pool is non-empty at session start, the
first emitted question is the oldest easy question, the seed leaves the
current tier at easy and sets the streak to 1 on a correct first answer and
0 otherwise; if the easy pool is empty at start no seeding step occurs, the
first question is taken by the no-signal fallback order easy, else medium,
else hard, and the no-signal step leaves tier and streak state at their
initial values. -/
theorem opening_move (questions : List Question) (answers : List Bool)
    (rest : List Question) (la : Option Bool) (s2 : GenState) :
    ((initState questions).easy ≠ [] →
      (questionGenerator questions answers).head? = (initState questions).easy.head?) ∧
    ((afterSeed (initState questions) rest la).currentDifficulty = "easy" ∧
      (afterSeed (initState questions) rest la).consecutiveCorrect =
        (if la = some true then 1 else 0) ∧
      (afterSeed (initState questions) rest la).easy = rest) ∧
    ((initState questions).easy = [] →
      (questionGenerator questions answers).head? =
        ((initState questions).medium ++ (initState questions).hard).head?) ∧
    ((stepBody none s2).2.currentDifficulty = s2.currentDifficulty ∧
      (stepBody none s2).2.consecutiveCorrect = s2.consecutiveCorrect ∧
      (stepBody none s2).2.consecutiveMediumCorrect = s2.consecutiveMediumCorrect) := by
  refine ⟨?_, ⟨rfl, rfl, rfl⟩, ?_, ?_⟩
  · intro hne
    unfold questionGenerator
    rcases heq : (initState questions).easy with _ | ⟨q, r⟩
    · exact absurd heq hne
    · simp
  · intro he
    unfold questionGenerator
    rw [he]
    rw [runLoop_head (poolSize (initState questions)) (initState questions) answers (le_refl _)]
    simp [allPool, he]
  · exact ⟨(takeFirst_counters ["easy", "medium", "hard"] s2).2.2,
      (takeFirst_counters ["easy", "medium", "hard"] s2).1,
      (takeFirst_counters ["easy", "medium", "hard"] s2).2.1⟩

/-- Witness for C7: with the canonical example pool, the first emitted
question is the oldest easy question. -/
theorem opening_move_witness :
    (initState examplePool).easy ≠ [] ∧
    (questionGenerator examplePool [true]).head? = (initState examplePool).easy.head? :=
  ⟨by decide,
    (opening_move examplePool [true] [qE2] (some true) (initState examplePool)).1 (by decide)⟩

/-! Claim theorems: canonical example, empty pool, scorer. -/

/-- C3 counterexample: with the canonical pool and feedback
correct, correct, correct, the second emitted question is M1 — a medium
question — and not E2 as the claim states. -/
theorem canonical_example_counterexample :
    (questionGenerator examplePool [true, true, true])[1]? = some qM1 ∧
    qM1.difficulty = "medium" ∧ qM1 ≠ qE2 ∧
    (questionGenerator examplePool [true, true, true])[1]? ≠ some qE2 := by
  decide

/-- C3 amended.  Canonical example: for the pool E1, E2 easy, M1, M2
medium, H1 hard with feedback correct, correct, correct, the emitted order
is E1, M1, M2, E2, H1: the seed answer is counted again by the first loop
iteration, so one correct answer already brings the streak to the threshold
2 and the second emitted question is the medium question M1. -/
theorem canonical_example_run :
    questionGenerator examplePool [true, true, true] = [qE1, qM1, qM2, qE2, qH1] := by
  decide

/-- C8 counterexample: running the generator on an empty question list
completes normally with no questions emitted — no error of any kind is
raised (the source has no `EmptyPoolError`; the generator simply finishes
at once, and its callers treat the immediately-done iterator as a normal
session end). -/
theorem empty_pool_counterexample :
    questionGenerator [] [] = [] := by
  decide

/-- C8 amended.  Constructing the generator from an empty input sequence
completes silently: for every answer sequence the run emits no questions
and returns normally; no `EmptyPoolError` exists in the code. -/
theorem empty_pool_completes_silently (answers : List Bool) :
    questionGenerator [] answers = [] := rfl

/-- C9.  Scorer behaviour: a correct answer increments `correctAnswers` and
the score by exactly 1 (no weighting by difficulty), an incorrect answer
increments `incorrectAnswers` and leaves the score unchanged; the position
index increments by exactly 1 per processed answer regardless of outcome,
and the session is ended exactly when the position index equals the number
of questions. -/
theorem quiz_scorer (quiz : Quiz) (isCorrect : Bool) :
    ((quiz.checkAnswer true).correctAnswers = quiz.correctAnswers + 1 ∧
      (quiz.checkAnswer true).score = quiz.score + 1 ∧
      (quiz.checkAnswer true).incorrectAnswers = quiz.incorrectAnswers) ∧
    ((quiz.checkAnswer false).incorrectAnswers = quiz.incorrectAnswers + 1 ∧
      (quiz.checkAnswer false).score = quiz.score ∧
      (quiz.checkAnswer false).correctAnswers = quiz.correctAnswers) ∧
    (quiz.processAnswer isCorrect).questionIndex = quiz.questionIndex + 1 ∧
    (quiz.isEnded = true ↔ quiz.questionIndex = quiz.questions.length) := by
  refine ⟨⟨rfl, rfl, rfl⟩, ⟨rfl, rfl, rfl⟩, ?_, ?_⟩
  · cases isCorrect <;> rfl
  · simp [Quiz.isEnded]
